import Mathlib

/-!
# DocEmbed: verification of the ingestion / dedup / dispatch pipeline

Shallow embedding of the DocEmbed repository:
* `src/publisher/celery_app.py` — the Dispatcher (`process_s3_text`) and the
  Chunker (`parse_text`);
* `src/consumer/embed_app.py` — the Worker (`store_pdf_content`) and the
  upsert into the vector store;
* `src/query-engine/query_service.py` — the Query Service (`search`).

JSON values (Celery task arguments and HTTP request bodies are JSON) are
modelled by `JVal`; JSON numbers are modelled exactly as integers and
rationals.  The vector store is a list of `Point`s; the external embedding
model, the S3 fetch and the nearest-neighbour search backend are parameters
of the functions that call them.
-/

set_option autoImplicit false

namespace DocEmbed

/-- A JSON value as Python's `json` module delivers it to the handlers:
strings, integers, floats (modelled exactly as rationals), booleans and
`None`.  Arrays/objects never appear in the fields the code touches and are
collapsed into `other`, which is enough to observe that `int()` raises and
`isinstance(·, str)` is false on them. -/
inductive JVal where
  | str (s : String)
  | int (n : Int)
  | float (q : Rat)
  | bool (b : Bool)
  | null
  | other
  deriving DecidableEq, Repr

/-- Python whitespace for `str.strip()` / `int(str)` on ASCII text:
space, tab, newline, carriage return, vertical tab, form feed. -/
def isPySpace (c : Char) : Bool :=
  c = ' ' || c = '\t' || c = '\n' || c = '\r' || c = '\x0b' || c = '\x0c'

/-- Python `str.strip()` on a list of characters: drop leading and trailing
whitespace. -/
def pyStrip (l : List Char) : List Char :=
  ((l.dropWhile isPySpace).reverse.dropWhile isPySpace).reverse

/-- Prepend a character to the first group of a non-empty list of groups
(helper for `splitNN`). -/
def pushF (c : Char) : List (List Char) → List (List Char)
  | [] => [[c]]
  | p :: ps => (c :: p) :: ps

/-- Python `text.split('\n\n')`: split on the literal two-character
separator, scanning left to right, non-overlapping.  Always returns at
least one (possibly empty) group, exactly like CPython `str.split` with an
explicit separator. -/
def splitNN : List Char → List (List Char)
  | [] => [[]]
  | [c] => [[c]]
  | c :: t :: rest =>
    if c = '\n' ∧ t = '\n' then [] :: splitNN rest
    else pushF c (splitNN (t :: rest))

/-- Whether the two-character separator `"\n\n"` occurs in the list. -/
def hasNN : List Char → Bool
  | [] => false
  | [_] => false
  | c :: t :: rest => (c = '\n' && t = '\n') || hasNN (t :: rest)

/-- `parse_text` from `src/publisher/celery_app.py` (the Chunker), on
already-decoded text: `[p.strip() for p in text.split('\n\n') if
p.strip()]`.  (The UTF-8 decode step of the Python function is modelled at
the Dispatcher level: an undecodable body is a fetch/parse failure.) -/
def parse_text (s : String) : List String :=
  (((splitNN s.data).map pyStrip).filter (fun p => p ≠ [])).map String.mk

example : parse_text "Intro paragraph.\n\nSecond paragraph." =
    ["Intro paragraph.", "Second paragraph."] := by decide

example : parse_text "a\n \nb" = ["a\n \nb"] := by decide

example : parse_text "" = [] := by decide

example : parse_text " \n\n\t" = [] := by decide

example : parse_text "  hi  " = ["hi"] := by decide

/-! ## Vector store (Qdrant `test_collection`) -/

/-- A stored Point: `{id, vector, payload}`.  The payload is a JSON object,
modelled as an association list (the Worker always writes
`{"doc_id": ..., "text": ...}`, but the Query Service must cope with
payloads that lack fields, so the payload type does not bake them in). -/
structure Point where
  id : String
  vector : List Rat
  payload : List (String × JVal)
  deriving DecidableEq, Repr

/-- Look up a key in a JSON object (first binding wins, as in a Python
dict there is at most one). -/
def jget (d : List (String × JVal)) (k : String) : Option JVal :=
  (d.find? (fun kv => kv.1 = k)).map (fun kv => kv.2)

/-- The collection state: the list of stored Points. -/
abbrev Store := List Point

/-- Well-formedness of a Store: point ids are pairwise distinct (Qdrant
keys points by id). -/
def NodupIds (s : Store) : Prop :=
  s.Pairwise (fun a b => a.id ≠ b.id)

/-- `qdrant_client.upsert` with a single `PointStruct`: write or overwrite
by `id` — if a point with the same id exists it is replaced in place,
otherwise the point is appended. -/
def upsert (s : Store) (p : Point) : Store :=
  if s.any (fun q => q.id = p.id) then
    s.map (fun q => if q.id = p.id then p else q)
  else
    s ++ [p]

/-- The dedup lookup of the Dispatcher (`qdrant_client.scroll` with filter
`doc_id == d`, limit 1, truthiness of the returned point list): does any
stored Point carry payload field `doc_id` equal to the string `d`? -/
def exists_for_doc (s : Store) (d : String) : Bool :=
  s.any (fun p => jget p.payload "doc_id" = some (JVal.str d))

/-! ## Worker (`store_pdf_content` in `src/consumer/embed_app.py`) -/

/-- The spec's error taxonomy for the Worker (`ValueError`s in the code:
the two `raise` sites of `store_pdf_content`). -/
inductive WorkerError where
  | invalidArgument
  | embeddingDimensionMismatch
  deriving DecidableEq, Repr

/-- `store_pdf_content` from `src/consumer/embed_app.py`: validate that
`doc_id` and `chunk_id` are strings (`isinstance(·, str)`); embed the text;
validate the vector length against 384; upsert
`PointStruct(id=chunk_id, vector, payload={"doc_id": doc_id, "text": text})`.
The external embedding model is the parameter `embed`; an error result
means the task raised and nothing was written. -/
def store_pdf_content (embed : String → List Rat) (s : Store)
    (doc_id chunk_id : JVal) (text : String) : Except WorkerError Store :=
  match doc_id, chunk_id with
  | JVal.str d, JVal.str c =>
    let v := embed text
    if v.length ≠ 384 then
      Except.error WorkerError.embeddingDimensionMismatch
    else
      Except.ok (upsert s ⟨c, v, [("doc_id", JVal.str d), ("text", JVal.str text)]⟩)
  | _, _ => Except.error WorkerError.invalidArgument

/-! ## Dispatcher (`process_s3_text` in `src/publisher/celery_app.py`) -/

/-- One chunk task `{doc_id, chunk_id, text}` sent to
`chunk_content_queue`. -/
structure Task where
  doc_id : String
  chunk_id : String
  text : String
  deriving DecidableEq, Repr

/-- Index (from the end) of the last occurrence of `c`, as `rfind` does:
`none` when absent. -/
def lastIndexOf (c : Char) (cs : List Char) : Option Nat :=
  cs.enum.foldl (fun acc ix => if ix.2 = c then some ix.1 else acc) none

/-- `os.path.splitext(key)[0]`: drop the final dot-extension of the
basename; leading dots of the basename never start an extension. -/
def splitextRoot (key : String) : String :=
  let cs := key.data
  let si : Int := match lastIndexOf '/' cs with
    | some n => (n : Int)
    | none => -1
  match lastIndexOf '.' cs with
  | none => key
  | some d =>
    if (d : Int) > si then
      let fi := (si + 1).toNat
      if ((cs.drop fi).take (d - fi)).any (fun c => c ≠ '.') then
        String.mk (cs.take d)
      else key
    else key

example : splitextRoot "test_file.txt" = "test_file" := by decide
example : splitextRoot ".txt" = ".txt" := by decide
example : splitextRoot "a.b.txt" = "a.b" := by decide
example : splitextRoot "dir/a.txt" = "dir/a" := by decide

/-- The inner `for index, text in enumerate(paragraphs)` loop: one task per
chunk, each with a fresh id drawn from the uuid stream `uuids` starting at
position `k`. -/
def emitTasks (d : String) (uuids : Nat → String) : Nat → List String → List Task
  | _, [] => []
  | k, t :: ts => ⟨d, uuids k, t⟩ :: emitTasks d uuids (k + 1) ts

/-- The `for text_key in text_files` loop of `process_s3_text`.  `fetch`
models `s3_client.get_object` + UTF-8 decode: `none` is a fetch or decode
failure (an exception).  Returns the tasks actually sent before the run
ended and whether the run completed (`true`) or aborted with the exception
(`false`): the single `try/except` around the loop re-raises, so the first
failure ends the whole run, but tasks already sent stay sent. -/
def processKeys (store : Store) (uuids : Nat → String)
    (fetch : String → Option String) : List String → Nat → List Task × Bool
  | [], _ => ([], true)
  | key :: rest, k =>
    let d := splitextRoot key
    if exists_for_doc store d then
      processKeys store uuids fetch rest k
    else
      match fetch key with
      | none => ([], false)
      | some text =>
        let tasks := emitTasks d uuids k (parse_text text)
        let r := processKeys store uuids fetch rest (k + tasks.length)
        (tasks ++ r.1, r.2)

/-- `key.endswith('.txt')`, computably: the last four characters are
`".txt"`. -/
def endsWithTxt (key : String) : Bool :=
  key.data.reverse.take 4 = ['t', 'x', 't', '.']

example : endsWithTxt "a.txt" = true := by decide
example : endsWithTxt ".txt" = true := by decide
example : endsWithTxt "a.text" = false := by decide
example : endsWithTxt "txt" = false := by decide

/-- `process_s3_text`: filter the listing to `.txt` keys, then run the
per-document loop from uuid position 0. -/
def process_s3_text (store : Store) (uuids : Nat → String)
    (fetch : String → Option String) (listing : List String) : List Task × Bool :=
  processKeys store uuids fetch (listing.filter endsWithTxt) 0

/-! ## Query Service (`search` in `src/query-engine/query_service.py`) -/

/-- Truncation of a rational toward zero, as CPython `int(float)` does on
the value the float represents (`Int.div` truncates toward zero and `Rat`
denominators are positive). -/
def ratTrunc (q : Rat) : Int :=
  Int.tdiv q.num (q.den : Int)

/-- Decimal digit string to a natural number (helper for `pyInt`). -/
def digitsVal (cs : List Char) : Option Nat :=
  if cs ≠ [] ∧ cs.all Char.isDigit then
    some (cs.foldl (fun a c => a * 10 + (c.toNat - 48)) 0)
  else none

/-- CPython `int(str)` on plain decimal literals: strip whitespace, accept
an optional sign followed by a non-empty digit run, reject anything else
(underscore grouping is out of scope: no such literal reaches the
handler). -/
def parseIntStr (s : String) : Option Int :=
  match pyStrip s.data with
  | '+' :: rest => (digitsVal rest).map (fun n => (n : Int))
  | '-' :: rest => (digitsVal rest).map (fun n => -(n : Int))
  | rest => (digitsVal rest).map (fun n => (n : Int))

/-- CPython `int(x)` on a JSON value: identity on ints, 0/1 on bools,
truncation toward zero on floats, decimal parse on strings; `None`, arrays
and objects raise `TypeError` (`none`). -/
def pyInt : JVal → Option Int
  | JVal.int n => some n
  | JVal.bool b => some (if b then 1 else 0)
  | JVal.float q => some (ratTrunc q)
  | JVal.str s => parseIntStr s
  | JVal.null => none
  | JVal.other => none

/-- One scored hit from `qdrant_client.search` (`with_payload=True`). -/
structure ScoredPoint where
  id : String
  payload : List (String × JVal)
  score : Rat
  deriving DecidableEq, Repr

/-- The HTTP response of the `/search` handler: 200 with the result list,
400 with an error message, or 500 with an error message. -/
inductive Resp where
  | ok (results : List (List (String × JVal)))
  | badRequest (msg : String)
  | serverError (msg : String)
  deriving DecidableEq, Repr

/-- Whether a response is the 400-equivalent. -/
def Resp.is400 : Resp → Bool
  | Resp.badRequest _ => true
  | _ => false

/-- Whether a response is the 500-equivalent. -/
def Resp.is500 : Resp → Bool
  | Resp.serverError _ => true
  | _ => false

/-- The result-formatting comprehension of the handler: each hit becomes
`{"doc_id": payload.get("doc_id", ""), "chunk_id": id,
"text": payload.get("text", ""), "score": float(score)}`. -/
def formatEntry (p : ScoredPoint) : List (String × JVal) :=
  [("doc_id", (jget p.payload "doc_id").getD (JVal.str "")),
   ("chunk_id", JVal.str p.id),
   ("text", (jget p.payload "text").getD (JVal.str "")),
   ("score", JVal.float p.score)]

/-- The `/search` handler of `src/query-engine/query_service.py`.
`data` is `request.get_json()` (`none` for a missing/`None` body); `embed`
is the FastEmbed model; `searchFn` is `qdrant_client.search` (query vector
and limit to scored hits).  The second component records whether
`embedding_model.embed` was invoked.  Control flow follows the source:
missing body or keys → 400; `int(data['top_n'])` runs next, and a
coercion failure is the exception path → 500; then the `query_text`
string/emptiness check → 400; then `top_n <= 0` → 400; then embed,
dimension check (→ 500), search, format → 200. -/
def search (embed : String → List Rat)
    (searchFn : List Rat → Int → List ScoredPoint)
    (data : Option (List (String × JVal))) : Resp × Bool :=
  match data with
  | none => (Resp.badRequest "Missing query_text or top_n in request body", false)
  | some d =>
    if d.isEmpty then
      (Resp.badRequest "Missing query_text or top_n in request body", false)
    else
      match jget d "query_text", jget d "top_n" with
      | some qt, some tn =>
        match pyInt tn with
        | none => (Resp.serverError "int() conversion failed", false)
        | some top_n =>
          match qt with
          | JVal.str s =>
            if pyStrip s.data = [] then
              (Resp.badRequest "query_text must be a non-empty string", false)
            else if top_n ≤ 0 then
              (Resp.badRequest "top_n must be a positive integer", false)
            else
              let v := embed s
              if v.length ≠ 384 then
                (Resp.serverError "Failed to generate valid query embedding", true)
              else
                (Resp.ok ((searchFn v top_n).map formatEntry), true)
          | _ => (Resp.badRequest "query_text must be a non-empty string", false)
      | _, _ => (Resp.badRequest "Missing query_text or top_n in request body", false)

/-! ## Chunker lemmas -/

theorem splitNN_ne_nil (l : List Char) : splitNN l ≠ [] := by
  induction l using splitNN.induct with
  | case1 => simp [splitNN]
  | case2 c => simp [splitNN]
  | case3 c t rest h ih => simp [splitNN, h]
  | case4 c t rest h ih =>
    simp only [splitNN, if_neg h]
    cases splitNN (t :: rest) <;> simp [pushF]

theorem pushF_cons (c : Char) (p : List Char) (ps : List (List Char)) :
    pushF c (p :: ps) = (c :: p) :: ps := rfl

theorem splitNN_of_not_hasNN (l : List Char) (h : hasNN l = false) :
    splitNN l = [l] := by
  induction l using splitNN.induct with
  | case1 => rfl
  | case2 c => rfl
  | case3 c t rest hct ih =>
    exfalso
    simp [hasNN, hct.1, hct.2] at h
  | case4 c t rest hct ih =>
    have h' : hasNN (t :: rest) = false := by
      simp only [hasNN, Bool.or_eq_false_iff] at h
      exact h.2
    simp [splitNN, if_neg hct, ih h', pushF]

theorem splitNN_all_space (l : List Char) (h : l.all isPySpace = true) :
    ∀ p ∈ splitNN l, p.all isPySpace = true := by
  induction l using splitNN.induct with
  | case1 =>
    intro p hp
    simp [splitNN] at hp
    simp [hp]
  | case2 c =>
    intro p hp
    simp [splitNN] at hp
    simpa [hp] using h
  | case3 c t rest hct ih =>
    intro p hp
    simp only [List.all_cons, Bool.and_eq_true] at h
    simp only [splitNN, if_pos hct, List.mem_cons] at hp
    rcases hp with rfl | hp
    · rfl
    · exact ih h.2.2 p hp
  | case4 c t rest hct ih =>
    intro p hp
    simp only [List.all_cons, Bool.and_eq_true] at h
    have h' : (t :: rest).all isPySpace = true := by
      simp [h.2.1, h.2.2]
    simp only [splitNN, if_neg hct] at hp
    rcases he : splitNN (t :: rest) with _ | ⟨q, qs⟩
    · exact absurd he (splitNN_ne_nil _)
    · rw [he, pushF_cons, List.mem_cons] at hp
      rcases hp with rfl | hp
      · have hq := ih h' q (by rw [he]; exact List.mem_cons_self q qs)
        simp [h.1, hq]
      · exact ih h' p (by rw [he]; exact List.mem_cons_of_mem q hp)

theorem pyStrip_eq_nil_of_space (l : List Char) (h : l.all isPySpace = true) :
    pyStrip l = [] := by
  have h1 : l.dropWhile isPySpace = [] := by
    rw [List.dropWhile_eq_nil_iff]
    intro x hx
    exact (List.all_eq_true.mp h) x hx
  simp [pyStrip, h1]

/-- C5: the Chunker is deterministic (it is a pure function of the text)
and: for decodable text containing no blank-line separator, the output is
the single-element sequence holding the trimmed full text (the text not
being whitespace-only, which the claim's second clause covers); for empty
or whitespace-only input, the output is the empty sequence. -/
theorem chunker_single_and_empty (s : String) :
    (hasNN s.data = false → pyStrip s.data ≠ [] →
      parse_text s = [String.mk (pyStrip s.data)]) ∧
    (s.data.all isPySpace = true → parse_text s = []) := by
  constructor
  · intro h hne
    simp [parse_text, splitNN_of_not_hasNN s.data h, hne]
  · intro h
    simp only [parse_text, List.map_eq_nil_iff, List.filter_eq_nil_iff, List.mem_map,
      forall_exists_index, and_imp, forall_apply_eq_imp_iff₂]
    intro q hq
    simp [pyStrip_eq_nil_of_space q (splitNN_all_space s.data h q hq)]

/-- C5 witness: a text with no blank-line structure chunks to its own trim;
a whitespace-only text (even one containing the separator) chunks to
nothing. -/
theorem chunker_single_and_empty_witness :
    parse_text "  hi there " = ["hi there"] ∧ parse_text " \n\n\t" = [] := by
  refine ⟨?_, (chunker_single_and_empty " \n\n\t").2 (by decide)⟩
  have h := (chunker_single_and_empty "  hi there ").1 (by decide) (by decide)
  exact h.trans (by decide)

/-- C8: the Chunker splits only on the literal two-newline sequence: a
separator line containing whitespace (`"a\n \nb"`) is not a blank-line
boundary and yields one chunk keeping the inner line, while a true
`"\n\n"` yields two chunks. -/
theorem chunker_literal_separator :
    parse_text "a\n \nb" = ["a\n \nb"] ∧ parse_text "a\n\nb" = ["a", "b"] := by
  decide

/-! ## Worker theorems -/

/-- Whether a JSON value is a Python `str` (`isinstance(·, str)`). -/
def JVal.isStr : JVal → Bool
  | JVal.str _ => true
  | _ => false

theorem store_ok_inv (embed : String → List Rat) (s : Store)
    (d c t : String) (s' : Store)
    (h : store_pdf_content embed s (JVal.str d) (JVal.str c) t = Except.ok s') :
    (embed t).length = 384 ∧
    s' = upsert s ⟨c, embed t, [("doc_id", JVal.str d), ("text", JVal.str t)]⟩ := by
  by_cases hl : (embed t).length = 384
  · simp [store_pdf_content, hl] at h
    exact ⟨hl, h.symm⟩
  · simp [store_pdf_content, hl] at h

/-- C2: if the computed embedding's length differs from the collection's
configured dimension (384), the Worker task fails with
`EmbeddingDimensionMismatch` and nothing is written; a write happens only
when the length equals 384, and then it is exactly the upsert of the
chunk's Point. -/
theorem worker_dimension_guard (embed : String → List Rat) (s : Store)
    (d c t : String) :
    ((embed t).length ≠ 384 →
      store_pdf_content embed s (JVal.str d) (JVal.str c) t =
        Except.error WorkerError.embeddingDimensionMismatch) ∧
    (∀ s', store_pdf_content embed s (JVal.str d) (JVal.str c) t = Except.ok s' →
      (embed t).length = 384 ∧
      s' = upsert s ⟨c, embed t, [("doc_id", JVal.str d), ("text", JVal.str t)]⟩) := by
  constructor
  · intro h
    simp [store_pdf_content, h]
  · intro s' h
    exact store_ok_inv embed s d c t s' h

set_option maxRecDepth 8000 in
/-- C2 witness: a 383-dimensional embedding is rejected with the dimension
mismatch before any write. -/
theorem worker_dimension_guard_witness :
    store_pdf_content (fun _ => List.replicate 383 0) [] (JVal.str "doc")
      (JVal.str "chunk") "text" =
      Except.error WorkerError.embeddingDimensionMismatch :=
  (worker_dimension_guard (fun _ => List.replicate 383 0) [] "doc" "chunk" "text").1
    (by simp)

set_option maxRecDepth 8000 in
/-- C4 counterexample: the Worker accepts `doc_id = ""` (an empty string,
hence not a non-empty string) and upserts — it does not fail with
`InvalidArgument`, contradicting the claim. -/
theorem worker_empty_id_accepted_cex :
    store_pdf_content (fun _ => List.replicate 384 0) [] (JVal.str "")
      (JVal.str "c") "t" =
      Except.ok [⟨"c", List.replicate 384 0,
        [("doc_id", JVal.str ""), ("text", JVal.str "t")]⟩] := by
  simp [store_pdf_content, upsert]

/-- C4 amended: the Worker validates only that `doc_id` and `chunk_id` are
strings (`isinstance(·, str)`): any non-string fails with
`InvalidArgument` before an embedding is computed or anything is written,
and string arguments — empty ones included — never produce
`InvalidArgument`. -/
theorem worker_type_validation (embed : String → List Rat) (s : Store)
    (dv cv : JVal) (t : String) :
    ((dv.isStr = false ∨ cv.isStr = false) →
      store_pdf_content embed s dv cv t = Except.error WorkerError.invalidArgument) ∧
    (dv.isStr = true → cv.isStr = true →
      store_pdf_content embed s dv cv t ≠ Except.error WorkerError.invalidArgument) := by
  constructor
  · intro h
    cases dv <;> cases cv <;> simp_all [JVal.isStr, store_pdf_content]
  · intro hd hc
    cases dv <;> simp_all [JVal.isStr]
    cases cv <;> simp_all [JVal.isStr]
    simp only [store_pdf_content]
    split <;> simp

/-- C4 amended witness: an integer `doc_id` is rejected with
`InvalidArgument`. -/
theorem worker_type_validation_witness :
    store_pdf_content (fun _ => List.replicate 384 0) [] (JVal.int 7)
      (JVal.str "c") "t" = Except.error WorkerError.invalidArgument :=
  (worker_type_validation (fun _ => List.replicate 384 0) [] (JVal.int 7)
    (JVal.str "c") "t").1 (Or.inl rfl)

/-! ## Upsert algebra -/

theorem filter_id_nil (s : Store) (i : String) (h : ∀ q ∈ s, q.id ≠ i) :
    s.filter (fun q => q.id == i) = [] := by
  rw [List.filter_eq_nil_iff]
  intro q hq
  simpa using h q hq

theorem map_replace_eq_self (l : Store) (p : Point)
    (h : ∀ q ∈ l, q.id ≠ p.id) :
    l.map (fun q => if q.id = p.id then p else q) = l := by
  induction l with
  | nil => rfl
  | cons a rest ih =>
    simp only [List.map_cons, if_neg (h a (List.mem_cons_self a rest))]
    rw [ih (fun q hq => h q (List.mem_cons_of_mem a hq))]

theorem upsert_filter_id (s : Store) (p : Point) (h : NodupIds s) :
    (upsert s p).filter (fun q => q.id == p.id) = [p] := by
  unfold upsert
  split
  case isTrue hany =>
    induction s with
    | nil => simp at hany
    | cons a rest ih =>
      rw [NodupIds, List.pairwise_cons] at h
      by_cases ha : a.id = p.id
      · have hrest : ∀ q ∈ rest, q.id ≠ p.id := by
          intro q hq
          exact fun hqe => (h.1 q hq) (ha.trans hqe.symm)
        simp [ha, map_replace_eq_self rest p hrest, filter_id_nil rest p.id hrest]
      · have hany' : rest.any (fun q => q.id = p.id) = true := by
          simp only [List.any_cons, Bool.or_eq_true] at hany
          rcases hany with h1 | h1
          · exact absurd (by simpa using h1) ha
          · exact h1
        simpa [ha] using ih h.2 hany'
  case isFalse hany =>
    have h' : ∀ q ∈ s, q.id ≠ p.id := by
      intro q hq hqe
      exact hany (by simp only [List.any_eq_true]; exact ⟨q, hq, by simp [hqe]⟩)
    simp [List.filter_append, filter_id_nil s p.id h']

theorem upsert_nodup (s : Store) (p : Point) (h : NodupIds s) :
    NodupIds (upsert s p) := by
  unfold upsert
  split
  case isTrue hany =>
    rw [NodupIds, List.pairwise_map]
    refine h.imp_of_mem ?_
    intro a b _ _ hab
    by_cases ha : a.id = p.id <;> by_cases hb : b.id = p.id <;>
      simp_all
  case isFalse hany =>
    rw [NodupIds, List.pairwise_append]
    refine ⟨h, List.pairwise_singleton _ _, ?_⟩
    intro a ha b hb
    simp only [List.mem_singleton] at hb
    subst hb
    intro he
    exact hany (by simp only [List.any_eq_true]; exact ⟨a, ha, by simp [he]⟩)

theorem upsert_idem (s : Store) (p : Point) :
    upsert (upsert s p) p = upsert s p := by
  unfold upsert
  split
  case isTrue hany =>
    obtain ⟨q, hq, hqe⟩ := by simpa using hany
    have hmem : (s.map (fun q => if q.id = p.id then p else q)).any
        (fun q => q.id = p.id) = true := by
      simp only [List.any_eq_true]
      exact ⟨p, List.mem_map.mpr ⟨q, hq, by simp [hqe]⟩, by simp⟩
    rw [if_pos hmem, List.map_map]
    apply List.map_congr_left
    intro a _
    by_cases ha : a.id = p.id <;> simp [ha]
  case isFalse hany =>
    have hmem : (s ++ [p]).any (fun q => q.id = p.id) = true := by
      simp
    rw [if_pos hmem, List.map_append]
    have h' : ∀ q ∈ s, q.id ≠ p.id := by
      intro q hq hqe
      exact hany (by simp only [List.any_eq_true]; exact ⟨q, hq, by simp [hqe]⟩)
    simp [map_replace_eq_self s p h']

/-- C7: upserting twice under one id leaves exactly one Point under that
id, the one from the second write (last-write-wins); and replaying the
identical Worker task is idempotent on the store, so a redelivered task
never creates a duplicate Point. -/
theorem upsert_last_write_wins (s : Store) (p₁ p₂ : Point)
    (_hid : p₁.id = p₂.id) (h : NodupIds s) :
    (upsert (upsert s p₁) p₂).filter (fun q => q.id == p₂.id) = [p₂] ∧
    (∀ embed d c t s₁,
      store_pdf_content embed s (JVal.str d) (JVal.str c) t = Except.ok s₁ →
      store_pdf_content embed s₁ (JVal.str d) (JVal.str c) t = Except.ok s₁) := by
  constructor
  · exact upsert_filter_id (upsert s p₁) p₂ (upsert_nodup s p₁ h)
  · intro embed d c t s₁ h₁
    obtain ⟨hl, hs⟩ := store_ok_inv embed s d c t s₁ h₁
    subst hs
    simp [store_pdf_content, hl, upsert_idem]

/-- C7 witness: overwriting chunk id `"c"` keeps exactly the second
Point. -/
theorem upsert_last_write_wins_witness :
    (upsert (upsert [] ⟨"c", [1], [("text", JVal.str "a")]⟩)
        ⟨"c", [2], [("text", JVal.str "b")]⟩).filter
      (fun q => q.id == "c") = [⟨"c", [2], [("text", JVal.str "b")]⟩] :=
  (upsert_last_write_wins [] ⟨"c", [1], [("text", JVal.str "a")]⟩
    ⟨"c", [2], [("text", JVal.str "b")]⟩ rfl (List.Pairwise.nil)).1

/-! ## Dispatcher theorems -/

theorem emitTasks_doc_id (d : String) (uuids : Nat → String) :
    ∀ (ts : List String) (k : Nat) (t : Task), t ∈ emitTasks d uuids k ts →
      t.doc_id = d := by
  intro ts
  induction ts with
  | nil => intro k t ht; simp [emitTasks] at ht
  | cons x xs ih =>
    intro k t ht
    simp only [emitTasks, List.mem_cons] at ht
    rcases ht with rfl | ht
    · rfl
    · exact ih (k + 1) t ht

theorem processKeys_doc_ids (store : Store) (uuids : Nat → String)
    (fetch : String → Option String) (X : String)
    (h : exists_for_doc store X = true) :
    ∀ (keys : List String) (k : Nat) (t : Task),
      t ∈ (processKeys store uuids fetch keys k).1 → t.doc_id ≠ X := by
  intro keys
  induction keys with
  | nil => intro k t ht; simp [processKeys] at ht
  | cons key rest ih =>
    intro k t ht
    simp only [processKeys] at ht
    by_cases hd : exists_for_doc store (splitextRoot key) = true
    · rw [if_pos hd] at ht
      exact ih k t ht
    · rw [if_neg hd] at ht
      have hne : splitextRoot key ≠ X := fun he => hd (he ▸ h)
      rcases hf : fetch key with _ | text
      · rw [hf] at ht; simp at ht
      · rw [hf] at ht
        simp only [List.mem_append] at ht
        rcases ht with ht | ht
        · rw [emitTasks_doc_id _ uuids _ _ t ht]
          exact hne
        · exact ih _ t ht

theorem processKeys_fetch_congr (store : Store) (uuids : Nat → String)
    (fetch fetch' : String → Option String) (X : String)
    (h : exists_for_doc store X = true)
    (hf : ∀ key, splitextRoot key ≠ X → fetch key = fetch' key) :
    ∀ (keys : List String) (k : Nat),
      processKeys store uuids fetch keys k =
        processKeys store uuids fetch' keys k := by
  intro keys
  induction keys with
  | nil => intro k; rfl
  | cons key rest ih =>
    intro k
    simp only [processKeys]
    by_cases hd : exists_for_doc store (splitextRoot key) = true
    · rw [if_pos hd, if_pos hd, ih]
    · rw [if_neg hd, if_neg hd]
      have hne : splitextRoot key ≠ X := fun he => hd (he ▸ h)
      rw [← hf key hne]
      rcases hfk : fetch key with _ | text
      · rfl
      · simp only [ih]

/-- C1: once at least one Point with `payload.doc_id == X` exists in the
collection when the Dispatcher runs, the run emits no chunk task for
document `X`, and the document is skipped before fetch and chunking: the
run's outcome does not depend on what fetching a key of document `X` would
return. -/
theorem dispatcher_dedup_skip (store : Store) (uuids : Nat → String)
    (fetch fetch' : String → Option String) (listing : List String) (X : String)
    (h : exists_for_doc store X = true)
    (hf : ∀ key, splitextRoot key ≠ X → fetch key = fetch' key) :
    (∀ t ∈ (process_s3_text store uuids fetch listing).1, t.doc_id ≠ X) ∧
    process_s3_text store uuids fetch listing =
      process_s3_text store uuids fetch' listing := by
  constructor
  · intro t ht
    exact processKeys_doc_ids store uuids fetch X h _ 0 t ht
  · exact processKeys_fetch_congr store uuids fetch fetch' X h hf _ 0

/-- C1 witness: with `doc_id "a"` already stored, a run over
`["a.txt", "b.txt"]` is unchanged when the fetch of `"a.txt"` is replaced
by a failing fetch — `"a.txt"` is skipped before fetching. -/
theorem dispatcher_dedup_skip_witness :
    process_s3_text [⟨"p1", [], [("doc_id", JVal.str "a"), ("text", JVal.str "x")]⟩]
        (fun n => toString n)
        (fun key => if key = "b.txt" then some "hello" else none)
        ["a.txt", "b.txt"] =
      process_s3_text [⟨"p1", [], [("doc_id", JVal.str "a"), ("text", JVal.str "x")]⟩]
        (fun n => toString n)
        (fun key => if key = "a.txt" then some "boom" else
          if key = "b.txt" then some "hello" else none)
        ["a.txt", "b.txt"] := by
  refine (dispatcher_dedup_skip _ _ _ _ ["a.txt", "b.txt"] "a" (by decide) ?_).2
  intro key hk
  by_cases he : key = "a.txt"
  · exact absurd (by rw [he]; decide) hk
  · simp [he]

/-- C3 counterexample: with an empty collection, a listing
`["a.txt", "b.txt"]` where fetching `"a.txt"` fails emits no task at all —
in particular none for the still-unprocessed candidate `"b.txt"` — whereas
the same run without `"a.txt"` emits `"b.txt"`'s chunk task.  The failure
aborts the whole run instead of skipping only the failing document. -/
theorem dispatcher_no_isolation_cex :
    process_s3_text [] (fun n => toString n)
        (fun key => if key = "b.txt" then some "hello" else none)
        ["a.txt", "b.txt"] = ([], false) ∧
    process_s3_text [] (fun n => toString n)
        (fun key => if key = "b.txt" then some "hello" else none)
        ["b.txt"] = ([⟨"b", "0", "hello"⟩], true) := by
  decide

theorem processKeys_abort (store : Store) (uuids : Nat → String)
    (fetch : String → Option String) (key : String) (l₂ : List String)
    (hd : exists_for_doc store (splitextRoot key) = false)
    (hf : fetch key = none) :
    ∀ (l₁ : List String) (k : Nat),
      processKeys store uuids fetch (l₁ ++ key :: l₂) k =
        ((processKeys store uuids fetch l₁ k).1, false) := by
  intro l₁
  induction l₁ with
  | nil =>
    intro k
    simp [processKeys, hd, hf]
  | cons a rest ih =>
    intro k
    rw [List.cons_append]
    simp only [processKeys, List.append_eq]
    by_cases ha : exists_for_doc store (splitextRoot a) = true
    · rw [if_pos ha, if_pos ha, ih]
    · rw [if_neg ha, if_neg ha]
      rcases hfa : fetch a with _ | text
      · rfl
      · simp only [ih]

/-- C3 amended: a failure fetching or chunking one document aborts the
entire Dispatcher run: tasks already emitted for candidates earlier in the
listing stand, but the failing document and every candidate after it in
the listing are not processed in that run. -/
theorem dispatcher_abort (store : Store) (uuids : Nat → String)
    (fetch : String → Option String) (l₁ l₂ : List String) (key : String)
    (hk : endsWithTxt key = true)
    (hd : exists_for_doc store (splitextRoot key) = false)
    (hf : fetch key = none) :
    process_s3_text store uuids fetch (l₁ ++ key :: l₂) =
      ((process_s3_text store uuids fetch l₁).1, false) := by
  unfold process_s3_text
  rw [List.filter_append, List.filter_cons, if_pos (by simpa using hk)]
  exact processKeys_abort store uuids fetch key _ hd hf _ 0

/-- C3 amended witness: `"b.txt"` before the failing `"a.txt"` is
dispatched; the run then aborts. -/
theorem dispatcher_abort_witness :
    process_s3_text [] (fun n => toString n)
        (fun key => if key = "b.txt" then some "hello" else none)
        ["b.txt", "a.txt"] = ([⟨"b", "0", "hello"⟩], false) := by
  have h := dispatcher_abort [] (fun n => toString n)
    (fun key => if key = "b.txt" then some "hello" else none)
    ["b.txt"] [] "a.txt" (by decide) (by decide) (by decide)
  exact h.trans (by decide)

/-! ## Query Service theorems -/

/-- Replace the value stored under an existing key of a JSON object,
keeping every other binding. -/
def jset (d : List (String × JVal)) (k : String) (v : JVal) :
    List (String × JVal) :=
  d.map (fun kv => if kv.1 = k then (k, v) else kv)

theorem jset_isEmpty (d : List (String × JVal)) (k : String) (v : JVal) :
    (jset d k v).isEmpty = d.isEmpty := by
  cases d <;> rfl

theorem jget_cons (a : String × JVal) (rest : List (String × JVal))
    (k : String) :
    jget (a :: rest) k = if a.1 = k then some a.2 else jget rest k := by
  by_cases ha : a.1 = k <;> simp [jget, List.find?, ha]

theorem jget_jset_self (d : List (String × JVal)) (k : String) (v : JVal)
    (h : (jget d k).isSome) : jget (jset d k v) k = some v := by
  induction d with
  | nil => simp [jget] at h
  | cons a rest ih =>
    by_cases ha : a.1 = k
    · simp [jset, jget_cons, ha]
    · rw [jget_cons, if_neg ha] at h
      simp only [jset, List.map_cons, if_neg ha, jget_cons]
      exact ih h

theorem jget_jset_other (d : List (String × JVal)) (k : String) (v : JVal)
    (k' : String) (h : k' ≠ k) : jget (jset d k v) k' = jget d k' := by
  induction d with
  | nil => rfl
  | cons a rest ih =>
    by_cases ha : a.1 = k
    · have h1 : ¬(k = k') := fun he => h he.symm
      have h2 : ¬(a.1 = k') := fun he => h (ha ▸ he).symm
      simp only [jset, List.map_cons, if_pos ha, jget_cons, if_neg h1, if_neg h2]
      exact ih
    · simp only [jset, List.map_cons, if_neg ha, jget_cons]
      rw [show jset rest k v = rest.map
        (fun kv => if kv.1 = k then (k, v) else kv) from rfl] at ih
      rw [ih]

/-- C6 counterexample: the request `{query_text: "", top_n: "abc"}` has an
empty `query_text`, yet the handler answers with the 500-equivalent (the
`int(data['top_n'])` coercion raises before `query_text` is validated),
not the 400-equivalent the claim requires.  The embedding model is still
not invoked. -/
theorem query_empty_text_not400_cex :
    search (fun _ => []) (fun _ _ => [])
      (some [("query_text", JVal.str ""), ("top_n", JVal.str "abc")]) =
      (Resp.serverError "int() conversion failed", false) := by
  decide

/-- C6 amended: for every search request carrying a string `query_text`
and a `top_n` that `int()` can coerce, a coerced `top_n ≤ 0` or an empty
(or whitespace-only) `query_text` is answered with the 400-equivalent
response and the embedding model is not invoked; when `top_n` cannot be
coerced the handler raises and answers with the 500-equivalent response,
the embedding model again not invoked. -/
theorem query_validation (embed : String → List Rat)
    (searchFn : List Rat → Int → List ScoredPoint)
    (d : List (String × JVal)) (s : String) (tn : JVal)
    (hq : jget d "query_text" = some (JVal.str s))
    (ht : jget d "top_n" = some tn) :
    (∀ n : Int, pyInt tn = some n → (n ≤ 0 ∨ pyStrip s.data = []) →
      (search embed searchFn (some d)).1.is400 = true ∧
      (search embed searchFn (some d)).2 = false) ∧
    (pyInt tn = none →
      (search embed searchFn (some d)).1.is500 = true ∧
      (search embed searchFn (some d)).2 = false) := by
  have hde : d.isEmpty = false := by
    cases d with
    | nil => simp [jget] at hq
    | cons a rest => rfl
  constructor
  · intro n hn hcond
    by_cases hs0 : pyStrip s.data = []
    · simp [search, hde, hq, ht, hn, hs0, Resp.is400]
    · have hn0 : n ≤ 0 := hcond.resolve_right hs0
      simp [search, hde, hq, ht, hn, hs0, hn0, Resp.is400]
  · intro hn
    simp [search, hde, hq, ht, hn, Resp.is500]

/-- C6 amended witness: `top_n = 0` with a valid `query_text` is a 400
without invoking the embedding model. -/
theorem query_validation_witness :
    (search (fun _ => []) (fun _ _ => [])
      (some [("query_text", JVal.str "hi"), ("top_n", JVal.int 0)])).1.is400 = true ∧
    (search (fun _ => []) (fun _ _ => [])
      (some [("query_text", JVal.str "hi"), ("top_n", JVal.int 0)])).2 = false :=
  (query_validation (fun _ => []) (fun _ _ => [])
    [("query_text", JVal.str "hi"), ("top_n", JVal.int 0)] "hi" (JVal.int 0)
    (by decide) (by decide)).1 0 rfl (Or.inl (by decide))

/-- C9: a non-integer `top_n` that `int()` can coerce (a numeric string, a
float — truncated toward zero — or a bool) is accepted: the handler
behaves exactly as if the request had carried the coerced integer.  A
`top_n` that `int()` cannot coerce raises inside the handler and is
answered with the 500-equivalent response (given `query_text` is present,
so that the earlier missing-key 400 does not fire first). -/
theorem query_topn_coercion (embed : String → List Rat)
    (searchFn : List Rat → Int → List ScoredPoint)
    (d : List (String × JVal)) (tn : JVal)
    (ht : jget d "top_n" = some tn) :
    (∀ n : Int, pyInt tn = some n →
      search embed searchFn (some d) =
        search embed searchFn (some (jset d "top_n" (JVal.int n)))) ∧
    (∀ qt, jget d "query_text" = some qt → pyInt tn = none →
      (search embed searchFn (some d)).1.is500 = true) := by
  have hde : d.isEmpty = false := by
    cases d with
    | nil => simp [jget] at ht
    | cons a rest => rfl
  constructor
  · intro n hn
    have h1 : (jset d "top_n" (JVal.int n)).isEmpty = false := by
      rw [jset_isEmpty, hde]
    have h2 : jget (jset d "top_n" (JVal.int n)) "top_n" = some (JVal.int n) :=
      jget_jset_self d "top_n" (JVal.int n) (by rw [ht]; rfl)
    have h3 : jget (jset d "top_n" (JVal.int n)) "query_text" =
        jget d "query_text" :=
      jget_jset_other d "top_n" (JVal.int n) "query_text" (by decide)
    have hn' : pyInt (JVal.int n) = some n := rfl
    cases hqt : jget d "query_text" with
    | none => simp [search, hde, h1, h2, h3, hqt, ht]
    | some qt => simp [search, hde, h1, h2, h3, hqt, ht, hn, hn']
  · intro qt hqt hn
    simp [search, hde, ht, hqt, hn, Resp.is500]

/-- C9 witness: `top_n = 3.7` (a float) behaves exactly as `top_n = 3` —
the fractional value is truncated, not rejected. -/
theorem query_topn_coercion_witness :
    search (fun _ => List.replicate 384 0) (fun _ _ => [])
        (some [("query_text", JVal.str "hi"),
          ("top_n", JVal.float (mkRat 37 10))]) =
      search (fun _ => List.replicate 384 0) (fun _ _ => [])
        (some [("query_text", JVal.str "hi"), ("top_n", JVal.int 3)]) :=
  (query_topn_coercion (fun _ => List.replicate 384 0) (fun _ _ => [])
    [("query_text", JVal.str "hi"), ("top_n", JVal.float (mkRat 37 10))]
    (JVal.float (mkRat 37 10)) (by decide)).1 3 (by decide)

/-- C10: every entry of a successful (200) search response is the
formatting of one scored hit, and that formatting carries exactly the
fields `doc_id`, `chunk_id`, `text`, `score`; a payload lacking `doc_id`
or `text` yields the empty string for that field instead of an error, and
`score` is always emitted as a float. -/
theorem query_result_shape (embed : String → List Rat)
    (searchFn : List Rat → Int → List ScoredPoint)
    (data : Option (List (String × JVal))) (rs : List (List (String × JVal)))
    (h : (search embed searchFn data).1 = Resp.ok rs) :
    (∀ e ∈ rs, ∃ p, e = formatEntry p) ∧
    (∀ p : ScoredPoint,
      (formatEntry p).map Prod.fst = ["doc_id", "chunk_id", "text", "score"] ∧
      jget (formatEntry p) "score" = some (JVal.float p.score) ∧
      (jget p.payload "doc_id" = none →
        jget (formatEntry p) "doc_id" = some (JVal.str "")) ∧
      (jget p.payload "text" = none →
        jget (formatEntry p) "text" = some (JVal.str ""))) := by
  constructor
  · intro e he
    rcases data with _ | d
    · simp [search] at h
    · simp only [search] at h
      repeat' split at h
      all_goals simp_all
      subst h
      obtain ⟨p, _, rfl⟩ := List.mem_map.mp he
      exact ⟨p, rfl⟩
  · intro p
    refine ⟨rfl, rfl, ?_, ?_⟩
    · intro hd
      show some ((jget p.payload "doc_id").getD (JVal.str "")) = some (JVal.str "")
      rw [hd]
      rfl
    · intro hd
      show some ((jget p.payload "text").getD (JVal.str "")) = some (JVal.str "")
      rw [hd]
      rfl

set_option maxRecDepth 8000 in
/-- C10 witness: a stored hit whose payload lacks `doc_id` is returned
with `doc_id = ""` and exactly the four fields. -/
theorem query_result_shape_witness :
    jget (formatEntry ⟨"c1", [("text", JVal.str "hello")], mkRat 1 2⟩) "doc_id" =
      some (JVal.str "") ∧
    (formatEntry ⟨"c1", [("text", JVal.str "hello")], mkRat 1 2⟩).map Prod.fst =
      ["doc_id", "chunk_id", "text", "score"] := by
  have h := query_result_shape (fun _ => List.replicate 384 0)
    (fun _ _ => [⟨"c1", [("text", JVal.str "hello")], mkRat 1 2⟩])
    (some [("query_text", JVal.str "hi"), ("top_n", JVal.int 1)])
    [formatEntry ⟨"c1", [("text", JVal.str "hello")], mkRat 1 2⟩] (by decide)
  exact ⟨(h.2 ⟨"c1", [("text", JVal.str "hello")], mkRat 1 2⟩).2.2.1 (by decide),
    (h.2 ⟨"c1", [("text", JVal.str "hello")], mkRat 1 2⟩).1⟩

end DocEmbed
